import Mathlib

/-!
Verification of the travel-agent tool-calling orchestrator.

This file shallowly embeds the orchestration core of the repository
(`src/agent.py`, together with the booking tools of `src/tools/flights.py`
and `src/tools/hotels.py`) and proves the specified properties of the
tool-calling loop, the tool executor, the dry-run override and the
conversation-state lifecycle.

Modelling conventions:
* Python JSON-like values are the inductive `Json`; Python dicts are
  association lists in insertion order (`dictGet` is key lookup,
  `dictSet` is `d[k] = v`).
* A Python callable invoked as `func(**arguments)` is embedded as a
  function `ArgsMap → PyOutcome`, where `PyOutcome` distinguishes a
  returned value, a raised `TypeError` and any other raised exception;
  keyword binding against the target signature (missing required
  argument / unexpected keyword argument) is part of the embedded
  callable.
* `json.loads` applied to model-supplied text is embedded as the parse
  outcome carried alongside the raw text (`RawArgs` for tool-call
  argument payloads, `contentParse` for the assistant's final content):
  `none`/`.malformed` stands for `json.JSONDecodeError`.
* Nondeterministic externals (`uuid.uuid4`, `datetime.now`, the audit
  logger's returned id) are threaded in as an explicit `Entropy` oracle;
  the audit logger's file side effects are outside the model.
* The Groq chat-completions collaborator is an oracle `Nat → LLMStep`;
  `llm n` is the outcome of the `(n+1)`-st `create` call made inside a
  single `process_request` (so Python's `iteration = n+1`), either an
  exception (`.fail`) or a returned message (`.reply`).
-/

/-- Python-style JSON value (`json.loads` output / tool result dicts).
Numbers are integers: no number in the embedded code paths is fractional. -/
inductive Json where
  | null : Json
  | bool : Bool → Json
  | num : Int → Json
  | str : String → Json
  | arr : List Json → Json
  | obj : List (String × Json) → Json

/-- Association-list map carrying Python keyword arguments / dict fields. -/
abbrev ArgsMap := List (String × Json)

/-- Python dict lookup `d.get(k)` / `d[k]` on an insertion-ordered dict. -/
def dictGet (fs : ArgsMap) (k : String) : Option Json :=
  (fs.find? (fun p => p.1 == k)).map (fun p => p.2)

/-- Python dict assignment `d[k] = v`: replace in place if the key exists,
otherwise append at the end (insertion order). -/
def dictSet (fs : ArgsMap) (k : String) (v : Json) : ArgsMap :=
  if fs.any (fun p => p.1 == k) then
    fs.map (fun p => if p.1 == k then (k, v) else p)
  else
    fs ++ [(k, v)]

/-- Python truthiness of a JSON-like value (`if x:`). -/
def Json.truthy : Json → Bool
  | .null => false
  | .bool b => b
  | .num n => n != 0
  | .str s => s != ""
  | .arr xs => !xs.isEmpty
  | .obj fs => !fs.isEmpty

/-- Python `x == k` for a JSON-like value against a string constant
(used by `in` on lists). -/
def Json.eqStr : Json → String → Bool
  | .str s, k => s == k
  | _, _ => false

/-- Whether `pat` is a prefix of `text`, on character lists. -/
def charsStartWith : List Char → List Char → Bool
  | [], _ => true
  | _ :: _, [] => false
  | p :: ps, t :: ts => p == t && charsStartWith ps ts

/-- Whether `pat` occurs as a contiguous substring of the character list. -/
def charsHasSub (pat : List Char) : List Char → Bool
  | [] => charsStartWith pat []
  | t :: ts => charsStartWith pat (t :: ts) || charsHasSub pat ts

/-- Python `pat in text` for strings (substring containment). -/
def strHasSub (text pat : String) : Bool :=
  charsHasSub pat.toList text.toList

/-- Python `k in x` on a JSON-like value: key membership for dicts,
element membership for lists, substring for strings; raises `TypeError`
(modelled as `.error`) on non-iterables. -/
def pyContains (j : Json) (k : String) : Except String Bool :=
  match j with
  | .obj fs => .ok (fs.any (fun p => p.1 == k))
  | .arr xs => .ok (xs.any (fun x => x.eqStr k))
  | .str s => .ok (strHasSub s k)
  | _ => .error "argument of type is not iterable"

/-- Python `x[k] = v` for a string key: dict assignment for dicts, raises
`TypeError` (modelled as `.error`) for every other value. -/
def pySetItem (j : Json) (k : String) (v : Json) : Except String Json :=
  match j with
  | .obj fs => .ok (.obj (dictSet fs k v))
  | _ => .error "object does not support item assignment"

/-- Outcome of calling an embedded Python function with keyword
arguments: a returned value, a raised `TypeError`, or any other raised
exception. -/
inductive PyOutcome where
  | ok : Json → PyOutcome
  | typeError : String → PyOutcome
  | exc : String → PyOutcome

/-- Python `str()` as used by the f-string interpolation of passenger /
guest name fields: exact on strings, booleans, `None` and integers;
containers are abbreviated (the repository's data shapes never format a
container here). -/
def pyStr : Json → String
  | .null => "None"
  | .bool true => "True"
  | .bool false => "False"
  | .num n => toString n
  | .str s => s
  | .arr _ => "[...]"
  | .obj _ => "\x7b...\x7d"

/-- Python iteration (and `len`) over a JSON-like value: list elements,
string characters, dict keys; `none` stands for the `TypeError` raised by
`len`/iteration on other values. -/
def pyIter : Json → Option (List Json)
  | .arr xs => some xs
  | .str s => some (s.toList.map (fun c => Json.str (String.mk [c])))
  | .obj fs => some (fs.map (fun p => Json.str p.1))
  | .num _ => none
  | .bool _ => none
  | .null => none

/-- Python `p.get(k, "")`: field lookup with default on dicts; raises
`AttributeError` (modelled as `.error`) when `p` is not a dict. -/
def pyGetField (p : Json) (k : String) : Except String Json :=
  match p with
  | .obj fs => .ok ((dictGet fs k).getD (.str ""))
  | _ => .error "object has no attribute get"

/-- The name list comprehension shared by `book_flight` and `book_hotel`:
`[f"{p.get('first_name', '')} {p.get('last_name', '')}" for p in ps]`. -/
def pyNames : List Json → Except String (List String)
  | [] => .ok []
  | p :: rest => do
      let fn ← pyGetField p "first_name"
      let ln ← pyGetField p "last_name"
      let others ← pyNames rest
      .ok ((pyStr fn ++ " " ++ pyStr ln) :: others)

/-- Configuration (`src/config.py`, dataclass `Config`). -/
structure Config where
  groq_api_key : String
  dry_run_mode : Bool
  model_name : String
  log_file : String

/-- Explicit oracle for the nondeterministic externals used by the
booking tools: `uuid.uuid4()`-derived fragments, `datetime.now()`, and
the audit id returned by `logger.log`. -/
structure Entropy where
  bookingRef : String
  auditId : String
  now : String
  ticket : Nat → String
  confirmation : String

/-- Body of `book_flight` (`src/tools/flights.py`, lines 305-365), after
keyword binding, with entropy threaded explicitly.  Builds the `DRY_RUN`
preview or the `CONFIRMED` booking dict and appends `audit_log_id`. -/
def book_flight (ent : Entropy) (flight_offer_id passengers dry_run : Json) :
    PyOutcome :=
  let booking_ref := "BK-" ++ ent.bookingRef
  if dry_run.truthy then
    match pyIter passengers with
    | none => .typeError "object has no len"
    | some items =>
      match pyNames items with
      | .error e => .exc e
      | .ok names =>
        .ok (.obj [("success", .bool true),
          ("status", .str "DRY_RUN"),
          ("message", .str "This is a preview. No actual booking was made."),
          ("preview", .obj [("booking_reference", .str booking_ref),
            ("flight_offer_id", flight_offer_id),
            ("passengers", .num items.length),
            ("passenger_names", .arr (names.map Json.str))]),
          ("audit_log_id", .str ent.auditId)])
  else
    match pyIter passengers with
    | none => .typeError "object is not iterable"
    | some items =>
      match pyNames items with
      | .error e => .exc e
      | .ok names =>
        .ok (.obj [("success", .bool true),
          ("status", .str "CONFIRMED"),
          ("booking_reference", .str booking_ref),
          ("flight_offer_id", flight_offer_id),
          ("passengers", .arr (names.enum.map (fun p =>
            Json.obj [("name", .str p.2),
              ("ticket_number", .str ("098-" ++ ent.ticket p.1))]))),
          ("confirmation_email_sent", .bool true),
          ("created_at", .str ent.now),
          ("audit_log_id", .str ent.auditId)])

/-- Keyword binding of a call `book_flight(**kwargs)` against the
signature `book_flight(flight_offer_id, passengers, dry_run=False)`. -/
def book_flight_call (ent : Entropy) (kwargs : ArgsMap) : PyOutcome :=
  if kwargs.any (fun p =>
      !(p.1 == "flight_offer_id" || p.1 == "passengers" || p.1 == "dry_run")) then
    .typeError "got an unexpected keyword argument"
  else
    match dictGet kwargs "flight_offer_id", dictGet kwargs "passengers" with
    | some fid, some pax =>
        book_flight ent fid pax ((dictGet kwargs "dry_run").getD (.bool false))
    | _, _ => .typeError "missing required positional argument"

/-- Body of `book_hotel` (`src/tools/hotels.py`, lines 292-357), after
keyword binding.  `payment_info` is only logged, so it does not appear. -/
def book_hotel (ent : Entropy) (hotel_offer_id guests dry_run : Json) :
    PyOutcome :=
  let booking_ref := "HBK-" ++ ent.bookingRef
  if dry_run.truthy then
    match pyIter guests with
    | none => .typeError "object has no len"
    | some items =>
      match pyNames items with
      | .error e => .exc e
      | .ok names =>
        .ok (.obj [("success", .bool true),
          ("status", .str "DRY_RUN"),
          ("message", .str "This is a preview. No actual booking was made."),
          ("preview", .obj [("booking_reference", .str booking_ref),
            ("hotel_offer_id", hotel_offer_id),
            ("guests", .num items.length),
            ("guest_names", .arr (names.map Json.str))]),
          ("audit_log_id", .str ent.auditId)])
  else
    match pyIter guests with
    | none => .typeError "object is not iterable"
    | some items =>
      match pyNames items with
      | .error e => .exc e
      | .ok names =>
        .ok (.obj [("success", .bool true),
          ("status", .str "CONFIRMED"),
          ("booking_reference", .str booking_ref),
          ("hotel_offer_id", hotel_offer_id),
          ("confirmation_number", .str ("CONF-" ++ ent.confirmation)),
          ("guests", .arr (names.enum.map (fun p =>
            Json.obj [("name", .str p.2),
              ("is_primary", .bool (p.1 == 0))]))),
          ("special_requests", .null),
          ("confirmation_email_sent", .bool true),
          ("created_at", .str ent.now),
          ("audit_log_id", .str ent.auditId)])

/-- Keyword binding of a call `book_hotel(**kwargs)` against the signature
`book_hotel(hotel_offer_id, guests, payment_info=None, dry_run=False)`. -/
def book_hotel_call (ent : Entropy) (kwargs : ArgsMap) : PyOutcome :=
  if kwargs.any (fun p =>
      !(p.1 == "hotel_offer_id" || p.1 == "guests" ||
        p.1 == "payment_info" || p.1 == "dry_run")) then
    .typeError "got an unexpected keyword argument"
  else
    match dictGet kwargs "hotel_offer_id", dictGet kwargs "guests" with
    | some hid, some gs =>
        book_hotel ent hid gs ((dictGet kwargs "dry_run").getD (.bool false))
    | _, _ => .typeError "missing required positional argument"

/-- `TravelAgent._book_flight_with_dry_run` (`src/agent.py`, lines 89-93):
when `config.dry_run_mode` is set, force `kwargs["dry_run"] = True` before
delegating to `book_flight`. -/
def book_flight_with_dry_run (cfg : Config) (ent : Entropy)
    (kwargs : ArgsMap) : PyOutcome :=
  let kwargs2 := if cfg.dry_run_mode then dictSet kwargs "dry_run" (.bool true) else kwargs
  book_flight_call ent kwargs2

/-- `TravelAgent._book_hotel_with_dry_run` (`src/agent.py`, lines 95-99). -/
def book_hotel_with_dry_run (cfg : Config) (ent : Entropy)
    (kwargs : ArgsMap) : PyOutcome :=
  let kwargs2 := if cfg.dry_run_mode then dictSet kwargs "dry_run" (.bool true) else kwargs
  book_hotel_call ent kwargs2

/-- The agent's name-to-callable table (`self.function_map`). -/
abbrev FMap := List (String × (ArgsMap → PyOutcome))

/-- Dict lookup in the function map. -/
def lookupFn (fmap : FMap) (name : String) : Option (ArgsMap → PyOutcome) :=
  (fmap.find? (fun p => p.1 == name)).map (fun p => p.2)

/-- Behaviours of the seven non-booking tools bound into the function
map.  They are external collaborators of the orchestration core (network
or mock-data backed, randomized), so each is an opaque callable. -/
structure ExternalTools where
  search_flights : ArgsMap → PyOutcome
  get_flight_pricing : ArgsMap → PyOutcome
  search_hotels : ArgsMap → PyOutcome
  check_hotel_availability : ArgsMap → PyOutcome
  estimate_total_cost : ArgsMap → PyOutcome
  plan_destination : ArgsMap → PyOutcome
  get_attractions : ArgsMap → PyOutcome

/-- `self.function_map` as built in `TravelAgent.__init__`
(`src/agent.py`, lines 74-84), in insertion order. -/
def travelFunctionMap (cfg : Config) (ext : ExternalTools) (ent : Entropy) :
    FMap :=
  [("search_flights", ext.search_flights),
   ("get_flight_pricing", ext.get_flight_pricing),
   ("book_flight", book_flight_with_dry_run cfg ent),
   ("search_hotels", ext.search_hotels),
   ("check_hotel_availability", ext.check_hotel_availability),
   ("book_hotel", book_hotel_with_dry_run cfg ent),
   ("estimate_total_cost", ext.estimate_total_cost),
   ("plan_destination", ext.plan_destination),
   ("get_attractions", ext.get_attractions)]

/-- `TravelAgent._execute_tool` (`src/agent.py`, lines 101-122): unknown
names and raised exceptions are converted into error dicts; a call with
a non-dict `arguments` raises `TypeError` at `func(**arguments)`, inside
the `try`, so it lands in the invalid-arguments branch. -/
def execute_tool (fmap : FMap) (tool_name : String) (arguments : Json) :
    Json :=
  match lookupFn fmap tool_name with
  | none =>
      .obj [("success", .bool false),
            ("error", .str ("Unknown function: " ++ tool_name))]
  | some func =>
    match arguments with
    | .obj kwargs =>
      match func kwargs with
      | .ok result => result
      | .typeError e =>
          .obj [("success", .bool false),
                ("error", .str ("Invalid arguments for " ++ tool_name ++ ": " ++ e))]
      | .exc e =>
          .obj [("success", .bool false),
                ("error", .str ("Function execution failed: " ++ e))]
    | _ =>
        .obj [("success", .bool false),
              ("error", .str ("Invalid arguments for " ++ tool_name ++
                              ": argument after ** must be a mapping"))]

/-- The fixed system instruction (`SYSTEM_PROMPT`, `src/agent.py`,
lines 28-57). -/
def SYSTEM_PROMPT : String :=
  "You are a Travel Workflow Orchestrator Agent.\n\nYOUR ROLE:\n1. Parse user intent from natural language travel requests\n2. Call the appropriate travel functions with validated parameters\n3. Return results from function calls\n\nCRITICAL RULES:\n- You can ONLY call these functions: search_flights, get_flight_pricing, search_hotels, check_hotel_availability, estimate_total_cost, book_flight, book_hotel, plan_destination, get_attractions\n- Do NOT attempt to call any other functions or tools (no \"json\" tool exists)\n- If you need to ask for clarification, just respond with a plain text message - do NOT use function calls for clarifications\n- All dates must be in YYYY-MM-DD format\n- Airport codes must be 3-letter IATA codes (e.g., MAA for Chennai, SIN for Singapore)\n- For bookings, always use dry_run=true unless user explicitly confirms booking\n\nFUNCTION REFERENCE:\n- search_flights(origin, destination, departure_date, adults, return_date?, cabin_class?)\n- get_flight_pricing(flight_offer_id, currency?)\n- search_hotels(check_in, check_out, adults, city_code?, location?, rooms?, amenities?)\n- check_hotel_availability(hotel_id, check_in, check_out, rooms?)\n- estimate_total_cost(flight_price, hotel_price, currency, include_taxes?, additional_costs?)\n- book_flight(flight_offer_id, passengers, dry_run?)\n- book_hotel(hotel_offer_id, guests, payment_info?, dry_run?)\n- plan_destination(destination, days?, interests?, travel_style?, budget?) - AI-powered itinerary planning\n- get_attractions(destination, category?, limit?) - Get top attractions for a destination\n\nFor any invalid or unambigious query , let the user know or ask clarification \nex:I need to go to delhi via fox (here what is fox)(ask user for clarification in these kinda cases)\n\nWhen you have results from functions, summarize them clearly. If you need more information from the user, ask in plain text."

/-- Raw tool-call argument payload (`tool_call.function.arguments`)
together with the outcome of `json.loads` on it: `.malformed` stands for
`json.JSONDecodeError`, `.parsed v` for a successful parse to `v`. -/
inductive RawArgs where
  | malformed : String → RawArgs
  | parsed : Json → RawArgs

/-- One requested tool invocation of an assistant message
(`tc.id`, `tc.function.name`, `tc.function.arguments`). -/
structure ToolCall where
  id : String
  name : String
  arguments : RawArgs

/-- One transcript entry of `self.messages`.  An assistant turn carries
its requested invocations (empty for a final answer); a tool turn stores
the result dict whose `json.dumps` the source puts in `content`. -/
inductive Turn where
  | system : String → Turn
  | user : String → Turn
  | assistant : Option String → List ToolCall → Turn
  | tool : String → Json → Turn

/-- The agent's conversation state (`self.messages`). -/
structure AgentState where
  messages : List Turn

/-- A chat-completions message returned by the collaborator.
`contentParse` is the outcome of `json.loads(content or "")`, carried as
an oracle alongside the text (`none` = `json.JSONDecodeError`); it is
only consulted when `tool_calls` is empty. -/
structure LLMMessage where
  content : Option String
  contentParse : Option Json
  tool_calls : List ToolCall

/-- One decision-collaborator call outcome: the `create` call raised
(`.fail e`, with `str(e) = e`), or returned a message. -/
inductive LLMStep where
  | fail : String → LLMStep
  | reply : LLMMessage → LLMStep

/-- One entry of `all_tool_results` (`src/agent.py`, lines 224-228). -/
structure ToolRecord where
  function : String
  arguments : Json
  result : Json

/-- The JSON value of an accumulated `all_tool_results` list as it is
embedded into a response envelope. -/
def ToolRecord.toJson (r : ToolRecord) : Json :=
  .obj [("function", .str r.function), ("arguments", r.arguments),
        ("result", r.result)]

/-- Serialization of the record buffer into an envelope field. -/
def recordsJson (rs : List ToolRecord) : Json :=
  .arr (rs.map ToolRecord.toJson)

/-- `json.loads` of a raw argument payload with the source's lenient
fallback: a parse failure yields the empty dict (`src/agent.py`,
lines 210-213). -/
def parseArguments : RawArgs → Json
  | .malformed _ => .obj []
  | .parsed v => v

/-- The per-batch tool execution loop (`src/agent.py`, lines 207-235):
for each requested invocation in order, parse arguments, execute, append
a record to the buffer and a correlated tool turn to the transcript. -/
def execCalls (fmap : FMap) :
    List ToolCall → List Turn → List ToolRecord → List Turn × List ToolRecord
  | [], msgs, acc => (msgs, acc)
  | tc :: rest, msgs, acc =>
    let arguments := parseArguments tc.arguments
    let result := execute_tool fmap tc.name arguments
    execCalls fmap rest (msgs ++ [Turn.tool tc.id result])
      (acc ++ [⟨tc.name, arguments, result⟩])

/-- Normalization of the final model output (`src/agent.py`,
lines 249-255): ensure a `success` flag, then attach the accumulated
`tool_results` when any exist and none are present; the Python `in` and
item-assignment semantics make this raise `TypeError` on non-dict
values. -/
def addSuccessAndResults (resp : Json) (acc : List ToolRecord) :
    Except String Json :=
  match pyContains resp "success" with
  | .error e => .error e
  | .ok hasSuccess =>
    match (if hasSuccess then .ok resp
           else pySetItem resp "success" (.bool true) : Except String Json) with
    | .error e => .error e
    | .ok resp1 =>
      if acc.isEmpty then .ok resp1
      else
        match pyContains resp1 "tool_results" with
        | .error e => .error e
        | .ok hasTR =>
          if hasTR then .ok resp1
          else pySetItem resp1 "tool_results" (recordsJson acc)

/-- Result of one `process_request`: the returned envelope (`.error e`
marks an uncaught Python exception escaping the call), the conversation
state afterwards, the final record buffer, and how many decision-
collaborator calls were made. -/
structure ProcOutput where
  envelope : Except String Json
  state : AgentState
  records : List ToolRecord
  llmCalls : Nat

/-- The `while iteration < max_iterations` loop of
`TravelAgent.process_request` (`src/agent.py`, lines 159-270), with
`fuel = max_iterations - iteration` remaining iterations and `iter` the
number of collaborator calls already made within this request. -/
def processLoop (cfg : Config) (fmap : FMap) (llm : Nat → LLMStep) :
    Nat → Nat → List Turn → List ToolRecord → ProcOutput
  | 0, _, msgs, acc =>
    ⟨.ok (.obj [("success", .bool false),
        ("error", .str "Maximum iterations reached"),
        ("tool_results", recordsJson acc)]), ⟨msgs⟩, acc, 0⟩
  | fuel + 1, iter, msgs, acc =>
    match llm iter with
    | .fail e =>
      ⟨.ok (.obj [("success", .bool false),
          ("error", .str ("LLM API error: " ++ e)),
          ("tool_results", recordsJson acc)]), ⟨msgs⟩, acc, 1⟩
    | .reply m =>
      match m.tool_calls with
      | [] =>
        let final_content := m.content.getD ""
        let base : Json :=
          match m.contentParse with
          | some j => j
          | none => .obj [("message", .str final_content),
                          ("tool_results", recordsJson acc)]
        match addSuccessAndResults base acc with
        | .ok env =>
            ⟨.ok env, ⟨msgs ++ [Turn.assistant (some final_content) []]⟩, acc, 1⟩
        | .error e => ⟨.error e, ⟨msgs⟩, acc, 1⟩
      | tc :: tcs =>
        let msgs1 := msgs ++ [Turn.assistant m.content (tc :: tcs)]
        let step := execCalls fmap (tc :: tcs) msgs1 acc
        let out := processLoop cfg fmap llm fuel (iter + 1) step.1 step.2
        ⟨out.envelope, out.state, out.records, out.llmCalls + 1⟩

/-- `TravelAgent.process_request` (`src/agent.py`, lines 124-270):
lazily insert the system turn, append the user turn, then run the
bounded loop with an empty record buffer and `max_iterations = 10`. -/
def process_request (cfg : Config) (fmap : FMap) (llm : Nat → LLMStep)
    (st : AgentState) (user_input : String) : ProcOutput :=
  let msgs0 := if st.messages.isEmpty then [Turn.system SYSTEM_PROMPT]
               else st.messages
  processLoop cfg fmap llm 10 0 (msgs0 ++ [Turn.user user_input]) []

/-- `TravelAgent.reset_conversation` (`src/agent.py`, lines 272-274). -/
def reset_conversation (_st : AgentState) : AgentState := ⟨[]⟩

/-- Minimal Python heap of list objects, for the aliasing contract of
`get_conversation_history`: a cell is one list object, identified by its
index. -/
structure PyListHeap where
  cells : List (List Turn)

/-- Dereference a list object. -/
def heapRead (h : PyListHeap) (i : Nat) : List Turn :=
  (h.cells[i]?).getD []

/-- In-place mutation of a list object (covers `append`, `remove`, …,
which replace the cell's contents). -/
def heapWrite (h : PyListHeap) (i : Nat) (v : List Turn) : PyListHeap :=
  ⟨h.cells.set i v⟩

/-- Allocation of a fresh list object. -/
def heapAlloc (h : PyListHeap) (v : List Turn) : PyListHeap × Nat :=
  (⟨h.cells ++ [v]⟩, h.cells.length)

/-- `TravelAgent.get_conversation_history` (`src/agent.py`,
lines 276-278): `return self.messages.copy()` — allocate a fresh list
object holding the same elements as `self.messages`. -/
def get_conversation_history (h : PyListHeap) (selfMessages : Nat) :
    PyListHeap × Nat :=
  heapAlloc h (heapRead h selfMessages)

/-- The ToolInvocationRecord produced for one requested invocation. -/
def recordOf (fmap : FMap) (tc : ToolCall) : ToolRecord :=
  ⟨tc.name, parseArguments tc.arguments,
   execute_tool fmap tc.name (parseArguments tc.arguments)⟩

/-- The correlated tool turn produced for one requested invocation. -/
def toolTurnOf (fmap : FMap) (tc : ToolCall) : Turn :=
  Turn.tool tc.id (execute_tool fmap tc.name (parseArguments tc.arguments))

/-- Records produced by the batch of collaborator call `n` (empty when
that call fails or requests nothing). -/
def stepRecs (fmap : FMap) (llm : Nat → LLMStep) (n : Nat) : List ToolRecord :=
  match llm n with
  | .reply m => m.tool_calls.map (recordOf fmap)
  | .fail _ => []

/-- Turns appended by the batch of collaborator call `n`. -/
def stepTurns (fmap : FMap) (llm : Nat → LLMStep) (n : Nat) : List Turn :=
  match llm n with
  | .reply m =>
      Turn.assistant m.content m.tool_calls :: m.tool_calls.map (toolTurnOf fmap)
  | .fail _ => []

/-- Records accumulated over `count` consecutive tool-requesting
iterations starting at collaborator call `start`. -/
def sweepRecs (fmap : FMap) (llm : Nat → LLMStep) : Nat → Nat → List ToolRecord
  | _, 0 => []
  | start, count + 1 =>
      stepRecs fmap llm start ++ sweepRecs fmap llm (start + 1) count

/-- Turns appended over `count` consecutive tool-requesting iterations
starting at collaborator call `start`. -/
def sweepTurns (fmap : FMap) (llm : Nat → LLMStep) : Nat → Nat → List Turn
  | _, 0 => []
  | start, count + 1 =>
      stepTurns fmap llm start ++ sweepTurns fmap llm (start + 1) count

/-- Key presence in an embedded dict. -/
def hasField (fs : ArgsMap) (k : String) : Bool :=
  fs.any (fun p => p.1 == k)

/-- Whether a turn is the system turn. -/
def isSystemTurn : Turn → Bool
  | .system _ => true
  | _ => false

/-- Number of system turns in a transcript. -/
def sysCount (ms : List Turn) : Nat :=
  (ms.filter isSystemTurn).length

/-- The system turn is the unique first entry of the transcript. -/
def sysUnique (ms : List Turn) : Prop :=
  ms.head? = some (Turn.system SYSTEM_PROMPT) ∧ sysCount ms = 1

/-- Turns the orchestration loop itself can append (assistant or tool). -/
def isLoopTurn : Turn → Bool
  | .assistant _ _ => true
  | .tool _ _ => true
  | _ => false

/-- Well-correlated transcripts: every assistant turn that requests `N`
invocations is immediately followed by exactly `N` tool turns whose
correlation ids repeat the requested ids in order, and tool turns occur
nowhere else. -/
inductive Blocks : List Turn → Prop where
  | nil : Blocks []
  | system (s : String) {rest : List Turn} :
      Blocks rest → Blocks (Turn.system s :: rest)
  | user (s : String) {rest : List Turn} :
      Blocks rest → Blocks (Turn.user s :: rest)
  | final (c : Option String) {rest : List Turn} :
      Blocks rest → Blocks (Turn.assistant c [] :: rest)
  | batch (c : Option String) (tcs : List ToolCall) (f : ToolCall → Json)
      {rest : List Turn} (h : tcs ≠ []) (hb : Blocks rest) :
      Blocks (Turn.assistant c tcs ::
        (tcs.map (fun tc => Turn.tool tc.id (f tc)) ++ rest))

/-- Concrete configuration with the dry-run flag set, for witnesses. -/
def wCfg : Config := ⟨"key", true, "model", "logs/audit.jsonl"⟩

/-- Concrete entropy oracle for witnesses. -/
def wEnt : Entropy := ⟨"AB12CD", "a-1", "2025-01-01T00:00:00", fun n => "TK" ++ toString n, "9F9F9F9F"⟩

/-- Concrete external-tool behaviours for witnesses: every non-booking
tool call fails with a network error. -/
def wExt : ExternalTools :=
  ⟨fun _ => .exc "network unreachable", fun _ => .exc "network unreachable",
   fun _ => .exc "network unreachable", fun _ => .exc "network unreachable",
   fun _ => .exc "network unreachable", fun _ => .exc "network unreachable",
   fun _ => .exc "network unreachable"⟩

/-- The concrete agent function map for witnesses. -/
def wFmap : FMap := travelFunctionMap wCfg wExt wEnt

/-- A concrete tool call booking a flight with `dry_run` omitted. -/
def wTc : ToolCall :=
  ⟨"call_1", "book_flight", .parsed (.obj
    [("flight_offer_id", .str "FLT-1"),
     ("passengers", .arr [.obj [("first_name", .str "Ada"),
                                ("last_name", .str "L")]])])⟩

/-- A concrete tool call whose argument payload is malformed JSON. -/
def wTcBad : ToolCall := ⟨"call_2", "search_flights", .malformed "not json"⟩

/-- A script that requests the flight booking on every iteration. -/
def wLlmLoop : Nat → LLMStep := fun _ => .reply ⟨none, none, [wTc]⟩

/-- A script whose first call fails with a transport error. -/
def wLlmFail : Nat → LLMStep := fun _ => .fail "connection reset"

/-- A script that immediately answers with plain (non-JSON) text. -/
def wLlmText : Nat → LLMStep := fun _ => .reply ⟨some "All done", none, []⟩

/-- A script whose final content parses to a non-object JSON value. -/
def wLlmNum : Nat → LLMStep := fun _ => .reply ⟨some "42", some (.num 42), []⟩

theorem execCalls_eq (fmap : FMap) (tcs : List ToolCall) (msgs : List Turn)
    (acc : List ToolRecord) :
    execCalls fmap tcs msgs acc =
      (msgs ++ tcs.map (toolTurnOf fmap), acc ++ tcs.map (recordOf fmap)) := by
  induction tcs generalizing msgs acc with
  | nil => simp [execCalls]
  | cons tc rest ih => simp [execCalls, ih, recordOf, toolTurnOf]

theorem find?_map_replace (fs : ArgsMap) (k : String) (v : Json) :
    ((fs.map (fun p => if p.1 == k then (k, v) else p)).find?
      (fun p => p.1 == k)) =
      if fs.any (fun p => p.1 == k) then some (k, v) else none := by
  induction fs with
  | nil => rfl
  | cons p rest ih =>
    rw [List.map_cons, List.any_cons]
    cases h : (p.1 == k) with
    | true =>
      rw [if_pos rfl,
        @List.find?_cons_of_pos _ (fun q => q.1 == k) (k, v) _ (by simp),
        Bool.true_or, if_pos rfl]
    | false =>
      rw [if_neg (by simp),
        @List.find?_cons_of_neg _ (fun q => q.1 == k) p _ (by simp [h]), ih,
        Bool.false_or]

theorem find?_append_of_none {α : Type} (p : α → Bool) (l1 l2 : List α)
    (h : l1.find? p = none) : (l1 ++ l2).find? p = l2.find? p := by
  induction l1 with
  | nil => simp
  | cons a rest ih =>
    cases hp : p a with
    | true => rw [List.find?_cons_of_pos _ hp] at h; exact absurd h (by simp)
    | false =>
      have hneg : ¬ p a = true := by simp [hp]
      rw [List.find?_cons_of_neg _ hneg] at h
      rw [List.cons_append, List.find?_cons_of_neg _ hneg]
      exact ih h

theorem find?_none_of_not_any {α : Type} (p : α → Bool) (l : List α)
    (h : l.any p = false) : l.find? p = none := by
  induction l with
  | nil => rfl
  | cons a rest ih =>
    rw [List.any_cons] at h
    have h1 : p a = false := by
      cases hp : p a
      · rfl
      · rw [hp, Bool.true_or] at h; exact absurd h (by simp)
    rw [h1, Bool.false_or] at h
    rw [List.find?_cons_of_neg _ (by simp [h1])]
    exact ih h

theorem dictGet_dictSet_self (fs : ArgsMap) (k : String) (v : Json) :
    dictGet (dictSet fs k v) k = some v := by
  unfold dictSet dictGet
  cases hA : fs.any (fun p => p.1 == k) with
  | true =>
    rw [if_pos rfl, find?_map_replace, if_pos hA]
    rfl
  | false =>
    rw [if_neg (by simp),
      find?_append_of_none _ _ _ (find?_none_of_not_any _ _ hA),
      @List.find?_cons_of_pos _ (fun q => q.1 == k) (k, v) _ (by simp)]
    rfl

/-- C2: for every tool name and argument value, `_execute_tool` totalizes
every outcome into a ToolResult dict: unknown names yield the
unknown-function error without consulting any binding, a `TypeError`
from the bound callable yields the invalid-arguments error, any other
exception yields the execution-failed error, and a returned value is
passed through. -/
theorem claim_C2 (fmap : FMap) (name : String) (args : Json) :
    (lookupFn fmap name = none →
      execute_tool fmap name args =
        .obj [("success", .bool false),
              ("error", .str ("Unknown function: " ++ name))]) ∧
    (∀ f kwargs e, lookupFn fmap name = some f → args = .obj kwargs →
      f kwargs = .typeError e →
      execute_tool fmap name args =
        .obj [("success", .bool false),
              ("error", .str ("Invalid arguments for " ++ name ++ ": " ++ e))]) ∧
    (∀ f kwargs e, lookupFn fmap name = some f → args = .obj kwargs →
      f kwargs = .exc e →
      execute_tool fmap name args =
        .obj [("success", .bool false),
              ("error", .str ("Function execution failed: " ++ e))]) ∧
    (∀ f kwargs r, lookupFn fmap name = some f → args = .obj kwargs →
      f kwargs = .ok r → execute_tool fmap name args = r) := by
  refine ⟨?_, ?_, ?_, ?_⟩
  · intro h; simp [execute_tool, h]
  · intro f kwargs e hf ha hr; subst ha; simp [execute_tool, hf, hr]
  · intro f kwargs e hf ha hr; subst ha; simp [execute_tool, hf, hr]
  · intro f kwargs r hf ha hr; subst ha; simp [execute_tool, hf, hr]

/-- Witness for C2: concrete unknown-name and TypeError cases through
the agent's real function map. -/
theorem claim_C2_witness :
    (lookupFn wFmap "teleport" = none ∧
      execute_tool wFmap "teleport" (.obj []) =
        .obj [("success", .bool false),
              ("error", .str ("Unknown function: " ++ "teleport"))]) ∧
    (lookupFn wFmap "book_flight" = some (book_flight_with_dry_run wCfg wEnt) ∧
      book_flight_with_dry_run wCfg wEnt [] =
        .typeError "missing required positional argument" ∧
      execute_tool wFmap "book_flight" (.obj []) =
        .obj [("success", .bool false),
              ("error", .str ("Invalid arguments for " ++ "book_flight" ++ ": " ++
                "missing required positional argument"))]) := by
  refine ⟨⟨rfl, (claim_C2 wFmap "teleport" (.obj [])).1 rfl⟩,
          ⟨rfl, rfl, (claim_C2 wFmap "book_flight" (.obj [])).2.1
            (book_flight_with_dry_run wCfg wEnt) [] _ rfl rfl rfl⟩⟩

theorem execute_tool_of_lookup (fmap : FMap) (name : String)
    (f : ArgsMap → PyOutcome) (kwargs : ArgsMap)
    (hl : lookupFn fmap name = some f) :
    execute_tool fmap name (.obj kwargs) =
      match f kwargs with
      | .ok r => r
      | .typeError e => .obj [("success", .bool false),
          ("error", .str ("Invalid arguments for " ++ name ++ ": " ++ e))]
      | .exc e => .obj [("success", .bool false),
          ("error", .str ("Function execution failed: " ++ e))] := by
  unfold execute_tool
  rw [hl]

theorem book_flight_dry (ent : Entropy) (kwargs : ArgsMap) (j : Json)
    (hdry : dictGet kwargs "dry_run" = some (.bool true))
    (hok : book_flight_call ent kwargs = .ok j) :
    ∃ fs, j = .obj fs ∧ dictGet fs "status" = some (.str "DRY_RUN") := by
  unfold book_flight_call at hok
  split at hok
  · exact absurd hok (by simp)
  · split at hok
    · rw [hdry] at hok
      unfold book_flight at hok
      simp only [Option.getD_some, Json.truthy, if_pos] at hok
      split at hok
      · exact absurd hok (by simp)
      · split at hok
        · exact absurd hok (by simp)
        · rw [PyOutcome.ok.injEq] at hok
          exact ⟨_, hok.symm, rfl⟩
    · exact absurd hok (by simp)

theorem book_hotel_dry (ent : Entropy) (kwargs : ArgsMap) (j : Json)
    (hdry : dictGet kwargs "dry_run" = some (.bool true))
    (hok : book_hotel_call ent kwargs = .ok j) :
    ∃ fs, j = .obj fs ∧ dictGet fs "status" = some (.str "DRY_RUN") := by
  unfold book_hotel_call at hok
  split at hok
  · exact absurd hok (by simp)
  · split at hok
    · rw [hdry] at hok
      unfold book_hotel at hok
      simp only [Option.getD_some, Json.truthy, if_pos] at hok
      split at hok
      · exact absurd hok (by simp)
      · split at hok
        · exact absurd hok (by simp)
        · rw [PyOutcome.ok.injEq] at hok
          exact ⟨_, hok.symm, rfl⟩
    · exact absurd hok (by simp)

/-- C5: with the process-wide dry-run flag set, both booking bindings in
the agent's function map are the dry-run wrappers, each wrapper executes
the underlying booking function with `dry_run` forced to `True` whatever
the model supplied, and every value such an invocation returns carries
the preview status `DRY_RUN` (so never the confirmed status). -/
theorem claim_C5 (cfg : Config) (ext : ExternalTools) (ent : Entropy)
    (fkw hkw : ArgsMap) (h : cfg.dry_run_mode = true) :
    lookupFn (travelFunctionMap cfg ext ent) "book_flight" =
        some (book_flight_with_dry_run cfg ent) ∧
    lookupFn (travelFunctionMap cfg ext ent) "book_hotel" =
        some (book_hotel_with_dry_run cfg ent) ∧
    book_flight_with_dry_run cfg ent fkw =
        book_flight_call ent (dictSet fkw "dry_run" (.bool true)) ∧
    book_hotel_with_dry_run cfg ent hkw =
        book_hotel_call ent (dictSet hkw "dry_run" (.bool true)) ∧
    dictGet (dictSet fkw "dry_run" (.bool true)) "dry_run" =
        some (.bool true) ∧
    dictGet (dictSet hkw "dry_run" (.bool true)) "dry_run" =
        some (.bool true) ∧
    (∀ j, book_flight_with_dry_run cfg ent fkw = .ok j →
       ∃ fs, j = .obj fs ∧ dictGet fs "status" = some (.str "DRY_RUN")) ∧
    (∀ j, book_hotel_with_dry_run cfg ent hkw = .ok j →
       ∃ fs, j = .obj fs ∧ dictGet fs "status" = some (.str "DRY_RUN")) := by
  have hf : book_flight_with_dry_run cfg ent fkw =
      book_flight_call ent (dictSet fkw "dry_run" (.bool true)) := by
    unfold book_flight_with_dry_run
    rw [h, if_pos rfl]
  have hh : book_hotel_with_dry_run cfg ent hkw =
      book_hotel_call ent (dictSet hkw "dry_run" (.bool true)) := by
    unfold book_hotel_with_dry_run
    rw [h, if_pos rfl]
  refine ⟨rfl, rfl, hf, hh, dictGet_dictSet_self _ _ _, dictGet_dictSet_self _ _ _,
    ?_, ?_⟩
  · intro j hok
    rw [hf] at hok
    exact book_flight_dry ent _ j (dictGet_dictSet_self _ _ _) hok
  · intro j hok
    rw [hh] at hok
    exact book_hotel_dry ent _ j (dictGet_dictSet_self _ _ _) hok

/-- Concrete booking arguments with `dry_run` omitted. -/
def wFlightArgs : ArgsMap :=
  [("flight_offer_id", .str "FLT-1"),
   ("passengers", .arr [.obj [("first_name", .str "Ada"),
                              ("last_name", .str "L")]])]

/-- Concrete booking arguments with `dry_run` explicitly `False`. -/
def wHotelArgs : ArgsMap :=
  [("hotel_offer_id", .str "HOF-1"),
   ("guests", .arr [.obj [("first_name", .str "Ada"),
                          ("last_name", .str "L")]]),
   ("dry_run", .bool false)]

/-- Witness for C5: with dry-run mode on, a concrete `book_flight` with
`dry_run` omitted and a concrete `book_hotel` with `dry_run=false` both
produce the DRY_RUN preview. -/
theorem claim_C5_witness :
    wCfg.dry_run_mode = true ∧
    (∀ j, book_flight_with_dry_run wCfg wEnt wFlightArgs = .ok j →
       ∃ fs, j = .obj fs ∧ dictGet fs "status" = some (.str "DRY_RUN")) ∧
    (∀ j, book_hotel_with_dry_run wCfg wEnt wHotelArgs = .ok j →
       ∃ fs, j = .obj fs ∧ dictGet fs "status" = some (.str "DRY_RUN")) ∧
    book_flight_with_dry_run wCfg wEnt wFlightArgs =
      .ok (.obj [("success", .bool true), ("status", .str "DRY_RUN"),
        ("message", .str "This is a preview. No actual booking was made."),
        ("preview", .obj [("booking_reference", .str "BK-AB12CD"),
          ("flight_offer_id", .str "FLT-1"), ("passengers", .num 1),
          ("passenger_names", .arr [.str "Ada L"])]),
        ("audit_log_id", .str "a-1")]) :=
  ⟨rfl,
   (claim_C5 wCfg wExt wEnt wFlightArgs wHotelArgs rfl).2.2.2.2.2.2.1,
   (claim_C5 wCfg wExt wEnt wFlightArgs wHotelArgs rfl).2.2.2.2.2.2.2,
   rfl⟩

/-- C10: a ToolInvocationRecord stores the arguments as parsed from the
model's payload, before the dry-run override: for a `book_flight` call
whose parsed arguments omit `dry_run` or set it to `false`, the record at
the corresponding buffer position carries exactly those arguments (so
never `dry_run=true`), while the executed call goes through the override
wrapper and any returned result carries the `DRY_RUN` status. -/
theorem claim_C10 (cfg : Config) (ext : ExternalTools) (ent : Entropy)
    (tcs : List ToolCall) (msgs : List Turn) (acc : List ToolRecord)
    (i : Nat) (tc : ToolCall) (kwargs : ArgsMap)
    (hdry : cfg.dry_run_mode = true)
    (hi : tcs[i]? = some tc) (hname : tc.name = "book_flight")
    (hargs : tc.arguments = .parsed (.obj kwargs))
    (hnod : dictGet kwargs "dry_run" = none ∨
            dictGet kwargs "dry_run" = some (.bool false)) :
    (execCalls (travelFunctionMap cfg ext ent) tcs msgs acc).2[acc.length + i]? =
      some ⟨"book_flight", .obj kwargs,
        execute_tool (travelFunctionMap cfg ext ent) "book_flight" (.obj kwargs)⟩ ∧
    dictGet kwargs "dry_run" ≠ some (.bool true) ∧
    book_flight_with_dry_run cfg ent kwargs =
      book_flight_call ent (dictSet kwargs "dry_run" (.bool true)) ∧
    (∃ fs, execute_tool (travelFunctionMap cfg ext ent) "book_flight"
        (.obj kwargs) = .obj fs ∧
      (dictGet fs "status" = some (.str "DRY_RUN") ∨
       dictGet fs "status" = none)) := by
  have hwrap : book_flight_with_dry_run cfg ent kwargs =
      book_flight_call ent (dictSet kwargs "dry_run" (.bool true)) := by
    unfold book_flight_with_dry_run
    rw [hdry, if_pos rfl]
  refine ⟨?_, ?_, hwrap, ?_⟩
  · rw [execCalls_eq, List.getElem?_append_right (Nat.le_add_right _ _)]
    simp only [Nat.add_sub_cancel_left, List.getElem?_map, hi, Option.map_some',
      recordOf, hname, hargs, parseArguments]
  · intro hcontra
    cases hnod with
    | inl h0 => rw [h0] at hcontra; exact absurd hcontra (by simp)
    | inr h0 => rw [h0] at hcontra; simp at hcontra
  · have hl : lookupFn (travelFunctionMap cfg ext ent) "book_flight" =
        some (book_flight_with_dry_run cfg ent) := rfl
    rw [execute_tool_of_lookup _ _ _ kwargs hl]
    cases hc : book_flight_with_dry_run cfg ent kwargs with
    | ok j =>
        rw [hwrap] at hc
        obtain ⟨fs, hj, hst⟩ :=
          book_flight_dry ent _ j (dictGet_dictSet_self _ _ _) hc
        exact ⟨fs, hj, Or.inl hst⟩
    | typeError e => exact ⟨_, rfl, Or.inr rfl⟩
    | exc e => exact ⟨_, rfl, Or.inr rfl⟩

/-- Witness for C10: the concrete dry-run-omitted booking call recorded
at position 0 of the buffer. -/
theorem claim_C10_witness :
    ([wTc] : List ToolCall)[0]? = some wTc ∧
    (execCalls wFmap [wTc] [] []).2[0]? =
      some ⟨"book_flight",
        .obj [("flight_offer_id", .str "FLT-1"),
          ("passengers", .arr [.obj [("first_name", .str "Ada"),
            ("last_name", .str "L")]])],
        execute_tool wFmap "book_flight"
          (.obj [("flight_offer_id", .str "FLT-1"),
            ("passengers", .arr [.obj [("first_name", .str "Ada"),
              ("last_name", .str "L")]])])⟩ ∧
    (∃ fs, execute_tool wFmap "book_flight"
        (.obj [("flight_offer_id", .str "FLT-1"),
          ("passengers", .arr [.obj [("first_name", .str "Ada"),
            ("last_name", .str "L")]])]) = .obj fs ∧
      (dictGet fs "status" = some (.str "DRY_RUN") ∨
       dictGet fs "status" = none)) := by
  have h := claim_C10 wCfg wExt wEnt [wTc] [] [] 0 wTc
    [("flight_offer_id", .str "FLT-1"),
     ("passengers", .arr [.obj [("first_name", .str "Ada"),
       ("last_name", .str "L")]])]
    rfl rfl rfl rfl (Or.inl rfl)
  exact ⟨rfl, h.1, h.2.2.2⟩

theorem processLoop_calls_le (cfg : Config) (fmap : FMap) (llm : Nat → LLMStep) :
    ∀ fuel iter msgs acc,
      (processLoop cfg fmap llm fuel iter msgs acc).llmCalls ≤ fuel := by
  intro fuel
  induction fuel with
  | zero => intro iter msgs acc; simp [processLoop]
  | succ f ih =>
    intro iter msgs acc
    rw [processLoop]
    split
    · simp
    · split
      · split
        · dsimp only
          split <;> simp
        · dsimp only
          split <;> simp
      · exact Nat.add_le_add_right (ih _ _ _) 1

theorem processLoop_batch_step (cfg : Config) (fmap : FMap) (llm : Nat → LLMStep)
    (f iter : Nat) (msgs : List Turn) (acc : List ToolRecord)
    (m : LLMMessage) (hm : llm iter = .reply m) (hne : m.tool_calls ≠ []) :
    processLoop cfg fmap llm (f + 1) iter msgs acc =
      ⟨(processLoop cfg fmap llm f (iter + 1)
          (msgs ++ stepTurns fmap llm iter)
          (acc ++ stepRecs fmap llm iter)).envelope,
       (processLoop cfg fmap llm f (iter + 1)
          (msgs ++ stepTurns fmap llm iter)
          (acc ++ stepRecs fmap llm iter)).state,
       (processLoop cfg fmap llm f (iter + 1)
          (msgs ++ stepTurns fmap llm iter)
          (acc ++ stepRecs fmap llm iter)).records,
       (processLoop cfg fmap llm f (iter + 1)
          (msgs ++ stepTurns fmap llm iter)
          (acc ++ stepRecs fmap llm iter)).llmCalls + 1⟩ := by
  obtain ⟨tc, tcs, hmt⟩ := List.exists_cons_of_ne_nil hne
  rw [processLoop, hm]
  dsimp only
  rw [hmt]
  dsimp only
  rw [execCalls_eq]
  simp only [stepTurns, stepRecs, hm, hmt, List.append_assoc, List.cons_append,
    List.singleton_append, List.nil_append]

theorem processLoop_sweep (cfg : Config) (fmap : FMap) (llm : Nat → LLMStep) :
    ∀ j fuel iter msgs acc, j ≤ fuel →
    (∀ n, n < j → ∃ m, llm (iter + n) = .reply m ∧ m.tool_calls ≠ []) →
    processLoop cfg fmap llm fuel iter msgs acc =
      ⟨(processLoop cfg fmap llm (fuel - j) (iter + j)
          (msgs ++ sweepTurns fmap llm iter j)
          (acc ++ sweepRecs fmap llm iter j)).envelope,
       (processLoop cfg fmap llm (fuel - j) (iter + j)
          (msgs ++ sweepTurns fmap llm iter j)
          (acc ++ sweepRecs fmap llm iter j)).state,
       (processLoop cfg fmap llm (fuel - j) (iter + j)
          (msgs ++ sweepTurns fmap llm iter j)
          (acc ++ sweepRecs fmap llm iter j)).records,
       (processLoop cfg fmap llm (fuel - j) (iter + j)
          (msgs ++ sweepTurns fmap llm iter j)
          (acc ++ sweepRecs fmap llm iter j)).llmCalls + j⟩ := by
  intro j
  induction j with
  | zero =>
    intro fuel iter msgs acc hj h
    simp [sweepTurns, sweepRecs]
  | succ j ih =>
    intro fuel iter msgs acc hj h
    obtain ⟨m, hm, hne⟩ := h 0 (Nat.succ_pos j)
    rw [Nat.add_zero] at hm
    cases fuel with
    | zero => exact absurd hj (by omega)
    | succ f =>
      rw [processLoop_batch_step cfg fmap llm f iter msgs acc m hm hne]
      have hh : ∀ n, n < j →
          ∃ m2, llm (iter + 1 + n) = .reply m2 ∧ m2.tool_calls ≠ [] := by
        intro n hn
        have := h (n + 1) (Nat.succ_lt_succ hn)
        rwa [show iter + (n + 1) = iter + 1 + n by omega] at this
      rw [ih f (iter + 1) (msgs ++ stepTurns fmap llm iter)
        (acc ++ stepRecs fmap llm iter) (Nat.le_of_succ_le_succ hj) hh]
      have h1 : iter + (j + 1) = iter + 1 + j := by omega
      have h2 : f + 1 - (j + 1) = f - j := by omega
      simp only [h1, h2, sweepTurns, sweepRecs, List.append_assoc, Nat.add_assoc]

/-- C1: when every collaborator response requests at least one tool, the
loop makes exactly 10 collaborator calls and terminates in the aborted
state: the envelope has success=false, the iteration-cap error
"Maximum iterations reached", and the tool_results of every invocation
attempted in iterations 1-10 (collaborator calls 0-9) in order; moreover
no run of `process_request` ever makes more than 10 collaborator calls. -/
theorem claim_C1 (cfg : Config) (fmap : FMap) (llm : Nat → LLMStep)
    (st : AgentState) (user_input : String)
    (h : ∀ n, n < 10 → ∃ m, llm n = .reply m ∧ m.tool_calls ≠ []) :
    (process_request cfg fmap llm st user_input).llmCalls = 10 ∧
    (process_request cfg fmap llm st user_input).envelope =
      .ok (.obj [("success", .bool false),
        ("error", .str "Maximum iterations reached"),
        ("tool_results", recordsJson (sweepRecs fmap llm 0 10))]) ∧
    (process_request cfg fmap llm st user_input).records =
      sweepRecs fmap llm 0 10 ∧
    (∀ llm2, (process_request cfg fmap llm2 st user_input).llmCalls ≤ 10) := by
  have hs := processLoop_sweep cfg fmap llm 10 10 0
    ((if st.messages.isEmpty then [Turn.system SYSTEM_PROMPT]
      else st.messages) ++ [Turn.user user_input]) []
    (le_refl 10) (fun n hn => by simpa using h n hn)
  refine ⟨?_, ?_, ?_, fun llm2 => ?_⟩ <;> unfold process_request <;> dsimp only
  · rw [hs]; simp [processLoop]
  · rw [hs]; simp [processLoop]
  · rw [hs]; simp [processLoop]
  · exact processLoop_calls_le cfg fmap llm2 10 0 _ []

/-- Witness for C1: a concrete script that books a flight on every
iteration runs exactly 10 collaborator calls and aborts. -/
theorem claim_C1_witness :
    (∀ n, n < 10 → ∃ m, wLlmLoop n = .reply m ∧ m.tool_calls ≠ []) ∧
    (process_request wCfg wFmap wLlmLoop ⟨[]⟩ "Book my flight").llmCalls = 10 ∧
    (process_request wCfg wFmap wLlmLoop ⟨[]⟩ "Book my flight").envelope =
      .ok (.obj [("success", .bool false),
        ("error", .str "Maximum iterations reached"),
        ("tool_results", recordsJson (sweepRecs wFmap wLlmLoop 0 10))]) := by
  have hyp : ∀ n, n < 10 → ∃ m, wLlmLoop n = .reply m ∧ m.tool_calls ≠ [] :=
    fun n _ => ⟨⟨none, none, [wTc]⟩, rfl, by simp⟩
  have h := claim_C1 wCfg wFmap wLlmLoop ⟨[]⟩ "Book my flight" hyp
  exact ⟨hyp, h.1, h.2.1⟩

/-- C6: when the collaborator call of iteration `k+1` itself raises after
`k` tool-requesting iterations, `process_request` returns immediately
(no retry: exactly `k+1` collaborator calls) with success=false, an
error naming the API failure, and exactly the records accumulated so
far; the conversation state retains the user turn and all turns appended
by the earlier iterations. -/
theorem claim_C6 (cfg : Config) (fmap : FMap) (llm : Nat → LLMStep)
    (st : AgentState) (user_input : String) (k : Nat) (e : String)
    (hk : k < 10)
    (hpre : ∀ n, n < k → ∃ m, llm n = .reply m ∧ m.tool_calls ≠ [])
    (hfail : llm k = .fail e) :
    (process_request cfg fmap llm st user_input).envelope =
      .ok (.obj [("success", .bool false),
        ("error", .str ("LLM API error: " ++ e)),
        ("tool_results", recordsJson (sweepRecs fmap llm 0 k))]) ∧
    (process_request cfg fmap llm st user_input).records =
      sweepRecs fmap llm 0 k ∧
    (process_request cfg fmap llm st user_input).llmCalls = k + 1 ∧
    (process_request cfg fmap llm st user_input).state.messages =
      ((if st.messages.isEmpty then [Turn.system SYSTEM_PROMPT]
        else st.messages) ++ [Turn.user user_input]) ++
        sweepTurns fmap llm 0 k := by
  have hs := processLoop_sweep cfg fmap llm k 10 0
    ((if st.messages.isEmpty then [Turn.system SYSTEM_PROMPT]
      else st.messages) ++ [Turn.user user_input]) []
    (by omega) (fun n hn => by simpa using hpre n hn)
  obtain ⟨f, hf⟩ : ∃ f, 10 - k = f + 1 := ⟨9 - k, by omega⟩
  rw [hf] at hs
  have hstep : processLoop cfg fmap llm (f + 1) (0 + k)
      ((((if st.messages.isEmpty then [Turn.system SYSTEM_PROMPT]
        else st.messages) ++ [Turn.user user_input]) ++
        sweepTurns fmap llm 0 k))
      ([] ++ sweepRecs fmap llm 0 k) =
      ⟨.ok (.obj [("success", .bool false),
          ("error", .str ("LLM API error: " ++ e)),
          ("tool_results", recordsJson ([] ++ sweepRecs fmap llm 0 k))]),
       ⟨(((if st.messages.isEmpty then [Turn.system SYSTEM_PROMPT]
         else st.messages) ++ [Turn.user user_input]) ++
         sweepTurns fmap llm 0 k)⟩,
       [] ++ sweepRecs fmap llm 0 k, 1⟩ := by
    rw [processLoop, Nat.zero_add, hfail]
  rw [hstep] at hs
  refine ⟨?_, ?_, ?_, ?_⟩ <;> unfold process_request <;> dsimp only <;>
    rw [hs] <;> simp [Nat.add_comm]

/-- Witness for C6: a concrete transport failure on the first
collaborator call yields the error envelope with empty tool results and
a transcript of exactly the system and user turns. -/
theorem claim_C6_witness :
    (wLlmFail 0 = .fail "connection reset") ∧
    (process_request wCfg wFmap wLlmFail ⟨[]⟩ "hi").envelope =
      .ok (.obj [("success", .bool false),
        ("error", .str ("LLM API error: " ++ "connection reset")),
        ("tool_results", recordsJson (sweepRecs wFmap wLlmFail 0 0))]) ∧
    (process_request wCfg wFmap wLlmFail ⟨[]⟩ "hi").llmCalls = 0 + 1 ∧
    (process_request wCfg wFmap wLlmFail ⟨[]⟩ "hi").state.messages =
      (([Turn.system SYSTEM_PROMPT] ++ [Turn.user "hi"]) ++
        sweepTurns wFmap wLlmFail 0 0) := by
  have h := claim_C6 wCfg wFmap wLlmFail ⟨[]⟩ "hi" 0 "connection reset"
    (by omega) (fun n hn => absurd hn (by omega)) rfl
  exact ⟨rfl, h.1, h.2.2.1, h.2.2.2⟩

theorem hasField_dictSet_self (fs : ArgsMap) (k : String) (v : Json) :
    hasField (dictSet fs k v) k = true := by
  unfold hasField dictSet
  by_cases hA : fs.any (fun p => p.1 == k) = true
  · rw [if_pos hA]
    rw [List.any_eq_true] at hA ⊢
    obtain ⟨p, hp, hpk⟩ := hA
    exact ⟨(k, v), List.mem_map.mpr ⟨p, hp, by simp [hpk]⟩, by simp⟩
  · rw [if_neg hA]
    rw [List.any_eq_true]
    exact ⟨(k, v), List.mem_append.mpr (Or.inr (List.mem_singleton.mpr rfl)),
      by simp⟩

theorem hasField_dictSet_of (fs : ArgsMap) (k k2 : String) (v : Json)
    (h : hasField fs k2 = true) : hasField (dictSet fs k v) k2 = true := by
  unfold hasField at h ⊢
  unfold dictSet
  rw [List.any_eq_true] at h
  obtain ⟨p, hp, hpk⟩ := h
  by_cases hA : fs.any (fun p => p.1 == k) = true
  · rw [if_pos hA, List.any_eq_true]
    by_cases hpk2 : (p.1 == k) = true
    · refine ⟨(k, v), List.mem_map.mpr ⟨p, hp, by simp [hpk2]⟩, ?_⟩
      have h1 : p.1 = k := by simpa using hpk2
      have h2 : p.1 = k2 := by simpa using hpk
      simp [← h1, h2]
    · exact ⟨p, List.mem_map.mpr ⟨p, hp, by simp [hpk2]⟩, hpk⟩
  · rw [if_neg hA, List.any_eq_true]
    exact ⟨p, List.mem_append.mpr (Or.inl hp), hpk⟩

theorem find?_map_replace_ne (fs : ArgsMap) (k k2 : String) (v : Json)
    (hne : k2 ≠ k) :
    ((fs.map (fun p => if p.1 == k then (k, v) else p)).find?
      (fun p => p.1 == k2)) = fs.find? (fun p => p.1 == k2) := by
  induction fs with
  | nil => rfl
  | cons p rest ih =>
    rw [List.map_cons]
    by_cases hpk : (p.1 == k) = true
    · have hp1 : p.1 = k := by simpa using hpk
      have hkk2 : (k == k2) = false := by
        rw [beq_eq_false_iff_ne]
        exact fun h => hne h.symm
      rw [if_pos hpk, List.find?_cons, List.find?_cons]
      simp only [hkk2, hp1]
      exact ih
    · rw [if_neg hpk, List.find?_cons, List.find?_cons]
      cases hq : (p.1 == k2) with
      | true => simp only [hq]
      | false => simp only [hq]; exact ih

theorem dictGet_dictSet_ne (fs : ArgsMap) (k k2 : String) (v : Json)
    (hne : k2 ≠ k) : dictGet (dictSet fs k v) k2 = dictGet fs k2 := by
  unfold dictGet dictSet
  by_cases hA : fs.any (fun p => p.1 == k) = true
  · rw [if_pos hA, find?_map_replace_ne fs k k2 v hne]
  · rw [if_neg hA, List.find?_append]
    have hkk2 : (k == k2) = false := by
      rw [beq_eq_false_iff_ne]
      exact fun h => hne h.symm
    have h1 : List.find? (fun p => p.1 == k2) [(k, v)] = none := by
      rw [List.find?_cons]
      simp only [hkk2]
      rfl
    rw [h1, Option.or_none]

theorem addSuccess_obj (fs : ArgsMap) (acc : List ToolRecord) :
    ∃ gs, addSuccessAndResults (.obj fs) acc = .ok (.obj gs) ∧
      hasField gs "success" = true ∧
      (acc ≠ [] → hasField gs "tool_results" = true) ∧
      (hasField fs "success" = false →
        dictGet gs "success" = some (.bool true)) := by
  unfold addSuccessAndResults
  dsimp only [pyContains]
  cases hS : (fs.any fun p => p.1 == "success") with
  | true =>
    cases hAcc : acc.isEmpty with
    | true =>
      refine ⟨fs, by simp, hS, ?_, ?_⟩
      · intro hne; exact absurd (List.isEmpty_iff.mp hAcc) hne
      · intro hcontra; rw [hasField] at hcontra; rw [hcontra] at hS; cases hS
    | false =>
      cases hT : (fs.any fun p => p.1 == "tool_results") with
      | true =>
        refine ⟨fs, by simp [pyContains, hT], hS, fun _ => hT, ?_⟩
        · intro hcontra; rw [hasField] at hcontra; rw [hcontra] at hS; cases hS
      | false =>
        refine ⟨dictSet fs "tool_results" (recordsJson acc),
          by simp [pyContains, pySetItem, hT],
          hasField_dictSet_of fs "tool_results" "success" _ hS,
          fun _ => hasField_dictSet_self fs "tool_results" _, ?_⟩
        · intro hcontra; rw [hasField] at hcontra; rw [hcontra] at hS; cases hS
  | false =>
    cases hAcc : acc.isEmpty with
    | true =>
      exact ⟨dictSet fs "success" (.bool true), by simp [pySetItem],
        hasField_dictSet_self fs "success" _,
        fun hne => absurd (List.isEmpty_iff.mp hAcc) hne,
        fun _ => dictGet_dictSet_self fs "success" _⟩
    | false =>
      cases hT : ((dictSet fs "success" (.bool true)).any
          fun p => p.1 == "tool_results") with
      | true =>
        exact ⟨dictSet fs "success" (.bool true),
          by simp [pyContains, pySetItem, hT],
          hasField_dictSet_self fs "success" _, fun _ => hT,
          fun _ => dictGet_dictSet_self fs "success" _⟩
      | false =>
        refine ⟨dictSet (dictSet fs "success" (.bool true)) "tool_results"
            (recordsJson acc),
          by simp [pyContains, pySetItem, hT],
          hasField_dictSet_of _ "tool_results" "success" _
            (hasField_dictSet_self fs "success" _),
          fun _ => hasField_dictSet_self _ "tool_results" _, ?_⟩
        · intro _
          rw [dictGet_dictSet_ne _ "tool_results" "success" _ (by decide)]
          exact dictGet_dictSet_self fs "success" _

theorem processLoop_C3 (cfg : Config) (fmap : FMap) (llm : Nat → LLMStep)
    (hok : ∀ n m, llm n = .reply m →
      m.contentParse = none ∨ ∃ fs, m.contentParse = some (.obj fs)) :
    ∀ fuel iter msgs acc, ∃ gs,
      (processLoop cfg fmap llm fuel iter msgs acc).envelope = .ok (.obj gs) ∧
      hasField gs "success" = true ∧
      ((processLoop cfg fmap llm fuel iter msgs acc).records ≠ [] →
        hasField gs "tool_results" = true) := by
  intro fuel
  induction fuel with
  | zero =>
    intro iter msgs acc
    exact ⟨_, rfl, rfl, fun _ => rfl⟩
  | succ f ih =>
    intro iter msgs acc
    rw [processLoop]
    cases hstep : llm iter with
    | fail e => exact ⟨_, rfl, rfl, fun _ => rfl⟩
    | reply m =>
      dsimp only
      cases hmt : m.tool_calls with
      | nil =>
        dsimp only
        rcases hok iter m hstep with hnone | ⟨fs, hfs⟩
        · rw [hnone]
          dsimp only
          obtain ⟨gs, hgs, h1, h2, _⟩ := addSuccess_obj
            [("message", .str (m.content.getD "")),
             ("tool_results", recordsJson acc)] acc
          rw [hgs]
          exact ⟨gs, rfl, h1, fun hne => h2 hne⟩
        · rw [hfs]
          dsimp only
          obtain ⟨gs, hgs, h1, h2, _⟩ := addSuccess_obj fs acc
          rw [hgs]
          exact ⟨gs, rfl, h1, fun hne => h2 hne⟩
      | cons tc tcs =>
        dsimp only
        exact ih (iter + 1) _ _

/-- C3 amended: `process_request` returns exactly one structured
envelope and never raises provided every collaborator final free-text
content either fails to JSON-parse or parses to a JSON object; the
envelope then always carries a `success` flag (and the normalizer
defaults it to true when the parsed object lacks one), together with a
`tool_results` field whenever any tool invocations were recorded.  (When
the final content parses to a non-object JSON value the source instead
raises `TypeError`, see the counterexample.) -/
theorem claim_C3_amended (cfg : Config) (fmap : FMap) (llm : Nat → LLMStep)
    (st : AgentState) (user_input : String)
    (hok : ∀ n m, llm n = .reply m →
      m.contentParse = none ∨ ∃ fs, m.contentParse = some (.obj fs)) :
    (∃ gs, (process_request cfg fmap llm st user_input).envelope =
        .ok (.obj gs) ∧
      hasField gs "success" = true ∧
      ((process_request cfg fmap llm st user_input).records ≠ [] →
        hasField gs "tool_results" = true)) ∧
    (∀ fs acc2, hasField fs "success" = false →
      ∃ gs, addSuccessAndResults (.obj fs) acc2 = .ok (.obj gs) ∧
        dictGet gs "success" = some (.bool true)) := by
  constructor
  · unfold process_request
    dsimp only
    exact processLoop_C3 cfg fmap llm hok 10 0 _ []
  · intro fs acc2 hF
    obtain ⟨gs, hgs, _, _, h4⟩ := addSuccess_obj fs acc2
    exact ⟨gs, hgs, h4 hF⟩

/-- Witness for the amended C3: a concrete plain-text final answer
yields the wrapped envelope with a defaulted success flag. -/
theorem claim_C3_witness :
    (∀ n m, wLlmText n = .reply m →
      m.contentParse = none ∨ ∃ fs, m.contentParse = some (.obj fs)) ∧
    (∃ gs, (process_request wCfg wFmap wLlmText ⟨[]⟩ "hi").envelope =
        .ok (.obj gs) ∧
      hasField gs "success" = true ∧
      ((process_request wCfg wFmap wLlmText ⟨[]⟩ "hi").records ≠ [] →
        hasField gs "tool_results" = true)) ∧
    (process_request wCfg wFmap wLlmText ⟨[]⟩ "hi").envelope =
      .ok (.obj [("message", .str "All done"), ("tool_results", .arr []),
                 ("success", .bool true)]) := by
  have hok : ∀ n m, wLlmText n = .reply m →
      m.contentParse = none ∨ ∃ fs, m.contentParse = some (.obj fs) := by
    intro n m hm
    simp only [wLlmText, LLMStep.reply.injEq] at hm
    rw [← hm]
    exact Or.inl rfl
  exact ⟨hok, (claim_C3_amended wCfg wFmap wLlmText ⟨[]⟩ "hi" hok).1, rfl⟩

/-- Counterexample to C3 as stated: when the collaborator's final
content parses to a non-object JSON value (the text "42" json-parses to
the number 42), `process_request` raises an uncaught `TypeError` from
evaluating `"success" not in final_response` — modelled as the `.error`
outcome — instead of returning an envelope. -/
theorem claim_C3_counterexample :
    (process_request wCfg wFmap wLlmNum ⟨[]⟩ "hi").envelope =
      .error "argument of type is not iterable" := rfl

theorem Blocks.append {xs ys : List Turn} (hx : Blocks xs) (hy : Blocks ys) :
    Blocks (xs ++ ys) := by
  induction hx with
  | nil => exact hy
  | system s _ ih => exact Blocks.system s ih
  | user s _ ih => exact Blocks.user s ih
  | final c _ ih => exact Blocks.final c ih
  | batch c tcs f h _ ih =>
    rw [List.cons_append, List.append_assoc]
    exact Blocks.batch c tcs f h ih

theorem processLoop_blocks (cfg : Config) (fmap : FMap) (llm : Nat → LLMStep) :
    ∀ fuel iter msgs acc, Blocks msgs →
      Blocks ((processLoop cfg fmap llm fuel iter msgs acc).state.messages) := by
  intro fuel
  induction fuel with
  | zero => intro iter msgs acc h; exact h
  | succ f ih =>
    intro iter msgs acc h
    rw [processLoop]
    cases hstep : llm iter with
    | fail e => exact h
    | reply m =>
      dsimp only
      cases hmt : m.tool_calls with
      | nil =>
        dsimp only
        split
        · exact Blocks.append h (Blocks.final _ Blocks.nil)
        · exact h
      | cons tc tcs =>
        dsimp only
        rw [execCalls_eq]
        dsimp only
        have hblock : Blocks (Turn.assistant m.content (tc :: tcs) ::
            ((tc :: tcs).map (toolTurnOf fmap) ++ [])) :=
          Blocks.batch m.content (tc :: tcs)
            (fun tc2 => execute_tool fmap tc2.name (parseArguments tc2.arguments))
            (by simp) Blocks.nil
        apply ih (iter + 1)
        have h2 := Blocks.append h hblock
        simpa using h2

/-- C4: starting from a well-correlated conversation state (in
particular the empty one), after any `process_request` the state is
still well-correlated: every assistant turn carrying `N` requested
invocations is immediately followed by exactly `N` tool turns whose
correlation ids repeat the requested ids in order, before the model is
queried again, and no tool turn occurs anywhere else. -/
theorem claim_C4 (cfg : Config) (fmap : FMap) (llm : Nat → LLMStep)
    (st : AgentState) (user_input : String)
    (h : Blocks st.messages) :
    Blocks ((process_request cfg fmap llm st user_input).state.messages) := by
  unfold process_request
  dsimp only
  apply processLoop_blocks
  by_cases he : st.messages.isEmpty = true
  · rw [if_pos he]
    exact Blocks.system _ (Blocks.user _ Blocks.nil)
  · rw [if_neg he]
    exact Blocks.append h (Blocks.user _ Blocks.nil)

/-- Witness for C4: a concrete ten-iteration booking run from the empty
state yields a well-correlated transcript. -/
theorem claim_C4_witness :
    Blocks (([] : List Turn)) ∧
    Blocks ((process_request wCfg wFmap wLlmLoop ⟨[]⟩ "hi").state.messages) :=
  ⟨Blocks.nil, claim_C4 wCfg wFmap wLlmLoop ⟨[]⟩ "hi" Blocks.nil⟩

/-- C7: a requested invocation whose raw argument payload fails to parse
as JSON is treated as an empty-argument call: the tool is still executed
with the empty mapping, a record carrying the empty mapping is still
appended at the invocation's position in the buffer, and a
correctly-correlated tool turn is still appended to the transcript. -/
theorem claim_C7 (fmap : FMap) (tcs : List ToolCall) (msgs : List Turn)
    (acc : List ToolRecord) (i : Nat) (tc : ToolCall) (raw : String)
    (h1 : tcs[i]? = some tc) (h2 : tc.arguments = .malformed raw) :
    parseArguments tc.arguments = .obj [] ∧
    (execCalls fmap tcs msgs acc).2[acc.length + i]? =
      some ⟨tc.name, .obj [], execute_tool fmap tc.name (.obj [])⟩ ∧
    (execCalls fmap tcs msgs acc).1[msgs.length + i]? =
      some (Turn.tool tc.id (execute_tool fmap tc.name (.obj []))) := by
  refine ⟨by rw [h2]; rfl, ?_, ?_⟩
  · rw [execCalls_eq]
    dsimp only
    rw [List.getElem?_append_right (Nat.le_add_right _ _)]
    simp only [Nat.add_sub_cancel_left, List.getElem?_map, h1, Option.map_some',
      recordOf, h2, parseArguments]
  · rw [execCalls_eq]
    dsimp only
    rw [List.getElem?_append_right (Nat.le_add_right _ _)]
    simp only [Nat.add_sub_cancel_left, List.getElem?_map, h1, Option.map_some',
      toolTurnOf, h2, parseArguments]

/-- Witness for C7: a concrete malformed payload executes with the empty
mapping and appends both the record and the correlated tool turn. -/
theorem claim_C7_witness :
    ([wTcBad] : List ToolCall)[0]? = some wTcBad ∧
    wTcBad.arguments = .malformed "not json" ∧
    (execCalls wFmap [wTcBad] [] []).2[0]? =
      some ⟨wTcBad.name, .obj [],
        execute_tool wFmap wTcBad.name (.obj [])⟩ ∧
    (execCalls wFmap [wTcBad] [] []).1[0]? =
      some (Turn.tool wTcBad.id (execute_tool wFmap wTcBad.name (.obj []))) := by
  have h := claim_C7 wFmap [wTcBad] [] [] 0 wTcBad "not json" rfl rfl
  exact ⟨rfl, rfl, h.2.1, h.2.2⟩

theorem processLoop_suffix (cfg : Config) (fmap : FMap) (llm : Nat → LLMStep) :
    ∀ fuel iter msgs acc, ∃ suffix,
      (processLoop cfg fmap llm fuel iter msgs acc).state.messages =
        msgs ++ suffix ∧ suffix.all isLoopTurn = true := by
  intro fuel
  induction fuel with
  | zero => intro iter msgs acc; exact ⟨[], by simp [processLoop], rfl⟩
  | succ f ih =>
    intro iter msgs acc
    rw [processLoop]
    cases hstep : llm iter with
    | fail e => exact ⟨[], by simp, rfl⟩
    | reply m =>
      dsimp only
      cases hmt : m.tool_calls with
      | nil =>
        dsimp only
        split
        · exact ⟨[Turn.assistant (some (m.content.getD "")) []], rfl, rfl⟩
        · exact ⟨[], by simp, rfl⟩
      | cons tc tcs =>
        dsimp only
        rw [execCalls_eq]
        dsimp only
        obtain ⟨suffix, hs, hall⟩ := ih (iter + 1)
          ((msgs ++ [Turn.assistant m.content (tc :: tcs)]) ++
            (tc :: tcs).map (toolTurnOf fmap))
          (acc ++ (tc :: tcs).map (recordOf fmap))
        refine ⟨Turn.assistant m.content (tc :: tcs) ::
          ((tc :: tcs).map (toolTurnOf fmap) ++ suffix), ?_, ?_⟩
        · rw [hs]; simp [List.append_assoc]
        · simp only [List.all_cons, List.all_append, isLoopTurn, Bool.true_and]
          rw [hall]
          simp [List.all_map, toolTurnOf, isLoopTurn]

/-- C8: after `reset_conversation` the state is empty; the next request
creates exactly one system turn (with the fixed instruction) first,
followed by exactly one user turn; on a request against a non-empty
state no additional system turn is inserted, so the system turn stays
the unique first entry. -/
theorem claim_C8 (cfg : Config) (fmap : FMap) (llm : Nat → LLMStep)
    (st : AgentState) (user_input : String) :
    (reset_conversation st).messages = [] ∧
    (st.messages = [] →
      (process_request cfg fmap llm st user_input).state.messages.take 2 =
        [Turn.system SYSTEM_PROMPT, Turn.user user_input] ∧
      sysUnique ((process_request cfg fmap llm st user_input).state.messages)) ∧
    (st.messages ≠ [] → sysUnique st.messages →
      sysUnique ((process_request cfg fmap llm st user_input).state.messages) ∧
      ∃ suffix,
        (process_request cfg fmap llm st user_input).state.messages =
          st.messages ++ Turn.user user_input :: suffix ∧
        suffix.all (fun t => !isSystemTurn t) = true) := by
  refine ⟨rfl, ?_, ?_⟩
  · intro hempty
    have hinit : (if st.messages.isEmpty then [Turn.system SYSTEM_PROMPT]
        else st.messages) = [Turn.system SYSTEM_PROMPT] := by
      rw [hempty]
      rfl
    unfold process_request
    dsimp only
    rw [hinit]
    obtain ⟨suffix, hs, hall⟩ := processLoop_suffix cfg fmap llm 10 0
      ([Turn.system SYSTEM_PROMPT] ++ [Turn.user user_input]) []
    have hnotsys : ∀ t ∈ suffix, isSystemTurn t = false := by
      intro t ht
      have h2 := List.all_eq_true.mp hall t ht
      cases t <;> simp [isLoopTurn] at h2 ⊢ <;> rfl
    have hfil : suffix.filter isSystemTurn = [] :=
      List.filter_eq_nil_iff.mpr (by intro a ha; simp [hnotsys a ha])
    rw [hs]
    refine ⟨?_, rfl, ?_⟩
    · exact List.take_left
        ([Turn.system SYSTEM_PROMPT] ++ [Turn.user user_input]) suffix
    · unfold sysCount
      simp [List.filter_append, List.filter_cons, isSystemTurn, hfil]
  · intro hne hsu
    have hinit : (if st.messages.isEmpty then [Turn.system SYSTEM_PROMPT]
        else st.messages) = st.messages := by
      rw [if_neg]
      intro hcontra
      exact hne (List.isEmpty_iff.mp hcontra)
    unfold process_request
    dsimp only
    rw [hinit]
    obtain ⟨suffix, hs, hall⟩ := processLoop_suffix cfg fmap llm 10 0
      (st.messages ++ [Turn.user user_input]) []
    have hnotsys : ∀ t ∈ suffix, isSystemTurn t = false := by
      intro t ht
      have h2 := List.all_eq_true.mp hall t ht
      cases t <;> simp [isLoopTurn] at h2 ⊢ <;> rfl
    have hfil : suffix.filter isSystemTurn = [] :=
      List.filter_eq_nil_iff.mpr (by intro a ha; simp [hnotsys a ha])
    have hmsgs : (processLoop cfg fmap llm 10 0
        (st.messages ++ [Turn.user user_input]) []).state.messages =
        st.messages ++ Turn.user user_input :: suffix := by
      rw [hs, List.append_assoc, List.singleton_append]
    rw [hmsgs]
    have hfilu : List.filter isSystemTurn (Turn.user user_input :: suffix) = [] := by
      rw [List.filter_cons]
      simp only [isSystemTurn, hfil]
      rfl
    cases hm : st.messages with
    | nil => exact absurd hm hne
    | cons a as =>
      rw [hm] at hsu
      obtain ⟨hh, hc⟩ := hsu
      refine ⟨⟨?_, ?_⟩, suffix, rfl, ?_⟩
      · rw [List.cons_append, List.head?_cons]
        rw [List.head?_cons] at hh
        exact hh
      · unfold sysCount at hc ⊢
        rw [List.filter_cons] at hc
        rw [List.cons_append, List.filter_cons, List.filter_append, hfilu,
          List.append_nil]
        exact hc
      · exact List.all_eq_true.mpr (fun t ht => by simp [hnotsys t ht])

/-- Witness for C8: a concrete reset followed by one request against the
empty state and another against the resulting non-empty state. -/
theorem claim_C8_witness :
    (reset_conversation ⟨[Turn.user "old"]⟩).messages = [] ∧
    ((⟨[]⟩ : AgentState).messages = [] →
      (process_request wCfg wFmap wLlmText ⟨[]⟩ "hi").state.messages.take 2 =
        [Turn.system SYSTEM_PROMPT, Turn.user "hi"] ∧
      sysUnique ((process_request wCfg wFmap wLlmText ⟨[]⟩ "hi").state.messages)) := by
  have h := claim_C8 wCfg wFmap wLlmText ⟨[]⟩ "hi"
  exact ⟨(claim_C8 wCfg wFmap wLlmText ⟨[Turn.user "old"]⟩ "hi").1, h.2.1⟩

/-- C9: `get_conversation_history` returns a fresh list object that is
element-for-element equal to the conversation state but distinct from
the agent's own list object, so any in-place mutation of the returned
list (append, remove, or arbitrary rewrite of its contents) leaves the
agent's conversation state unchanged. -/
theorem claim_C9 (h : PyListHeap) (selfCell : Nat)
    (hv : selfCell < h.cells.length) :
    heapRead (get_conversation_history h selfCell).1
        (get_conversation_history h selfCell).2 = heapRead h selfCell ∧
    (get_conversation_history h selfCell).2 ≠ selfCell ∧
    (∀ v, heapRead
        (heapWrite (get_conversation_history h selfCell).1
          (get_conversation_history h selfCell).2 v) selfCell =
      heapRead h selfCell) := by
  refine ⟨?_, ?_, ?_⟩
  · unfold get_conversation_history heapAlloc heapRead
    dsimp only
    rw [List.getElem?_concat_length]
    rfl
  · unfold get_conversation_history heapAlloc
    dsimp only
    omega
  · intro v
    unfold get_conversation_history heapAlloc heapWrite heapRead
    dsimp only
    rw [List.getElem?_set_ne (by omega), List.getElem?_append_left hv]

/-- Concrete one-cell heap whose only list object is the agent's
conversation state. -/
def wHeap : PyListHeap := ⟨[[Turn.user "x"]]⟩

/-- Witness for C9 at a concrete heap. -/
theorem claim_C9_witness :
    0 < wHeap.cells.length ∧
    (heapRead (get_conversation_history wHeap 0).1
        (get_conversation_history wHeap 0).2 = heapRead wHeap 0 ∧
    (get_conversation_history wHeap 0).2 ≠ 0 ∧
    (∀ v, heapRead
        (heapWrite (get_conversation_history wHeap 0).1
          (get_conversation_history wHeap 0).2 v) 0 =
      heapRead wHeap 0)) :=
  ⟨Nat.one_pos, claim_C9 wHeap 0 Nat.one_pos⟩
